import Mathlib

/-!
# Verification of the gauge value engine

A shallow embedding, over `ℚ`, of the dashboard program's scoring
functions (value mapper, weather classifier, hydration, posture, event
countdown, commute) and of the per-tick steps of its sampling loop
(time accumulation, inbound-line drain, external polls, frame assembly
and serialization), together with theorems settling the specification's
claims about them.

Python floats are modelled as rationals; Python's total `round` (which
rounds half to even) is modelled explicitly; strings read from the
transport are modelled as `List Char`.
-/

namespace Dashboard

/-- Python's built-in `round` on a rational: round half to even. -/
def py_round (x : ℚ) : ℤ :=
  let f : ℤ := ⌊x⌋
  if x - f < 1 / 2 then f
  else if 1 / 2 < x - f then f + 1
  else if f % 2 = 0 then f else f + 1

/-- `clamp100(x) = max(0, min(100, int(round(x))))`. -/
def clamp100 (x : ℚ) : ℤ :=
  max 0 (min 100 (py_round x))

/-- `lerp(a, b, t) = a + (b - a) * t`. -/
def lerp (a b t : ℚ) : ℚ := a + (b - a) * t

/-- `sorted(points, key=lambda p: p[0])`: Python's `sorted` is a stable
sort by the key, modelled by the (stable) insertion sort. -/
def sortByX (points : List (ℚ × ℚ)) : List (ℚ × ℚ) :=
  List.insertionSort (fun p q => p.1 ≤ q.1) points

/-- The `for (x0, y0), (x1, y1) in zip(points, points[1:])` loop of
`piecewise_linear`: scan adjacent pairs, return the interpolated value
of the first segment containing `x`, else the fallthrough value. -/
def scanSegs (x dflt : ℚ) : List (ℚ × ℚ) → ℚ
  | (x0, y0) :: (x1, y1) :: rest =>
    if x0 ≤ x ∧ x ≤ x1 then
      lerp y0 y1 (if x1 ≠ x0 then (x - x0) / (x1 - x0) else 0)
    else scanSegs x dflt ((x1, y1) :: rest)
  | _ => dflt

/-- The body of `piecewise_linear` after the internal sort.  `0` on the
empty list stands for Python's `IndexError` there; the program never
calls it with an empty anchor list. -/
def pw_core (x : ℚ) : List (ℚ × ℚ) → ℚ
  | [] => 0
  | p :: ps =>
    let lst := ps.getLastD p
    if x ≤ p.1 then p.2
    else if lst.1 ≤ x then lst.2
    else scanSegs x lst.2 (p :: ps)

/-- `piecewise_linear(x, points)`: sort the anchors by x, clamp outside
the anchor range, interpolate linearly inside it. -/
def piecewise_linear (x : ℚ) (points : List (ℚ × ℚ)) : ℚ :=
  pw_core x (sortByX points)

/-- `wmo_to_kind(wcode, wind_mph)`: base classification from the WMO
code, then the wind override, then the severe override. -/
def wmo_to_kind (wcode : ℤ) (wind_mph : ℚ) : String :=
  let kind :=
    if wcode = 0 then "sunny"
    else if wcode ∈ ([1, 2, 3, 45, 48] : List ℤ) then "cloudy"
    else if wcode ∈ ([95, 96, 99] : List ℤ) then "thunder"
    else if wcode ∈ ([71, 73, 75, 77, 85, 86] : List ℤ) then "snow"
    else if wcode ∈ ([51, 53, 55, 56, 57, 61, 63, 65, 66, 67, 80, 81, 82] : List ℤ) then "rain"
    else "cloudy"
  let kind2 := if 20 ≤ wind_mph ∧ kind ∉ (["thunder"] : List String) then "wind" else kind
  if wcode ∈ ([96, 99] : List ℤ) then "severe" else kind2

/-- `WEATHER_TICKS.get(kind, 75)`: the fixed category → score table,
defaulting to 75 for an unknown category. -/
def WEATHER_TICKS (kind : String) : ℚ :=
  if kind = "sunny" then 95
  else if kind = "cloudy" then 75
  else if kind = "rain" then 57
  else if kind = "thunder" then 45
  else if kind = "snow" then 30
  else if kind = "wind" then 20
  else if kind = "severe" then 10
  else 75

/-- `weather_value(kind) = clamp100(WEATHER_TICKS.get(kind, 75))`. -/
def weather_value (kind : String) : ℤ :=
  clamp100 (WEATHER_TICKS kind)

/-- `temp_value(temp_f) = clamp100(100.0 - temp_f)`. -/
def temp_value (temp_f : ℚ) : ℤ :=
  clamp100 (100 - temp_f)

/-- `water_value(last_water_ts)`, with `time.time()` passed explicitly
as `now`. -/
def water_value (now last_water_ts : ℚ) : ℤ :=
  let hours := (now - last_water_ts) / 3600
  if 4 ≤ hours then 5
  else clamp100 (piecewise_linear hours [(0, 95), (1, 70), (2, 52), (3, 25), (4, 5)])

/-- `stand_value(stand_ms, total_ms)`. -/
def stand_value (stand_ms total_ms : ℚ) : ℤ :=
  if total_ms ≤ 0 then 100
  else
    let pct := stand_ms / total_ms * 100
    let pct2 := max 0 (min 40 pct)
    clamp100 (piecewise_linear pct2 [(0, 100), (25, 50), (40, 10)])

/-- `event_value(seconds_left)`. -/
def event_value (seconds_left : ℚ) : ℤ :=
  let h := seconds_left / 3600
  if h ≤ 0 then 30
  else if 12 ≤ h then 90
  else clamp100 (piecewise_linear h [(0, 30), (6, 70), (8, 80), (10, 85), (12, 90)])

/-- `commute_value(minutes)`: clamp the estimate to `[12, 45]`, then
interpolate. -/
def commute_value (minutes : ℚ) : ℤ :=
  let m := max 12 (min 45 minutes)
  clamp100 (piecewise_linear m [(12, 100), (18, 65), (45, 30)])

example : water_value 0 0 = 95 := by
  norm_num [water_value, piecewise_linear, pw_core, sortByX, scanSegs, lerp, clamp100, py_round]
example : water_value 7200 0 = 52 := by
  norm_num [water_value, piecewise_linear, pw_core, sortByX, scanSegs, lerp, clamp100, py_round]
example : water_value 14400 0 = 5 := by
  norm_num [water_value]
example : water_value 36000 0 = 5 := by
  norm_num [water_value]
example : stand_value 500000 1000000 = 10 := by
  norm_num [stand_value, piecewise_linear, pw_core, sortByX, scanSegs, lerp, clamp100, py_round]
example : event_value 25200 = 75 := by
  norm_num [event_value, piecewise_linear, pw_core, sortByX, scanSegs, lerp, clamp100, py_round]
example : commute_value 20 = 62 := by
  norm_num [commute_value, piecewise_linear, pw_core, sortByX, scanSegs, lerp, clamp100, py_round]
example : weather_value (wmo_to_kind 1 5) = 75 := by
  simp +decide [weather_value, wmo_to_kind, WEATHER_TICKS]
  norm_num [clamp100, py_round]
example : temp_value 72 = 28 := by
  norm_num [temp_value, clamp100, py_round]

/-! ## The per-tick steps of the sampling loop (`main`) -/

/-- The accumulation step of a tick:
`dt = now - last_state_ts; if dt > 0: total_ms += dt*1000; if standing:
stand_ms += dt*1000`.  Returns the new `(stand_ms, total_ms)`. -/
def accumulate (now last_state_ts : ℚ) (standing : Bool) (stand_ms total_ms : ℚ) : ℚ × ℚ :=
  let dt := now - last_state_ts
  if 0 < dt then
    (if standing then stand_ms + dt * 1000 else stand_ms, total_ms + dt * 1000)
  else (stand_ms, total_ms)

/-- `str.startswith` on decoded lines (modelled as `List Char`). -/
def startswith (line pat : List Char) : Bool := pat.isPrefixOf line

/-- `str.endswith` on decoded lines (modelled as `List Char`). -/
def endswith (line pat : List Char) : Bool := pat.isSuffixOf line

/-- The drain loop of a tick, over the list of currently available
(already stripped) inbound lines.  An empty line hits the
`if not line: break` and ends the drain; `"B,WATER"` resets the
hydration timestamp to `now`; a line starting `"S,"` sets `standing`
from `line.endswith("1")`; anything else is skipped.  Returns the final
`(last_water_ts, standing)`. -/
def drain (now last_water_ts : ℚ) (standing : Bool) : List (List Char) → ℚ × Bool
  | [] => (last_water_ts, standing)
  | line :: rest =>
    if line = [] then (last_water_ts, standing)
    else if line = "B,WATER".toList then drain now now standing rest
    else if startswith line ("S,".toList) then
      drain now last_water_ts (endswith line ("1".toList)) rest
    else drain now last_water_ts standing rest

/-- The weather-poll step of a tick.  `fetched = some w` models a
successful `open_meteo_current` call returning the
`(temp_f, wcode, wind_mph)` triple; `fetched = none` models the call
raising any exception (the `except: pass`).  In Python the tuple
assignment happens only after the call returns, so a failed call
changes none of the three cached components.  Returns the new
`(cached triple, last_weather_poll)`. -/
def poll_weather (now last_weather_poll : ℚ) (cached : ℚ × ℤ × ℚ)
    (fetched : Option (ℚ × ℤ × ℚ)) : (ℚ × ℤ × ℚ) × ℚ :=
  if 300 < now - last_weather_poll then
    (match fetched with
     | some w => w
     | none => cached, now)
  else (cached, last_weather_poll)

/-- The commute-poll step of a tick.  `fetched` models
`ors_route_minutes` as for the weather poll; the fetch is attempted
only when an API key is configured.  Returns the new
`(commute_min, last_traffic_poll)`. -/
def poll_commute (now last_traffic_poll : ℚ) (commute_min : ℚ)
    (has_api_key : Bool) (fetched : Option ℚ) : ℚ × ℚ :=
  if 120 < now - last_traffic_poll then
    (match has_api_key, fetched with
     | true, some m => m
     | _, _ => commute_min, now)
  else (commute_min, last_traffic_poll)

/-- The `vals` list a tick assembles and hands to `send_update`:
the six gauge scores computed from the current runtime state, in the
fixed order weather, temperature, hydration, posture, event, commute. -/
def gauge_frame (now last_water_ts stand_ms total_ms temp_f : ℚ) (wcode : ℤ)
    (wind_mph event_target_epoch commute_min : ℚ) : List ℤ :=
  [weather_value (wmo_to_kind wcode wind_mph),
   temp_value temp_f,
   water_value now last_water_ts,
   stand_value stand_ms total_ms,
   event_value (event_target_epoch - now),
   commute_value commute_min]

/-- Python's `",".join(strs)`. -/
def join_comma : List String → String
  | [] => ""
  | [s] => s
  | s :: rest => s ++ "," ++ join_comma rest

/-- `send_update`: the line written to the transport,
`"U," + ",".join(str(clamp100(v)) for v in vals) + "\n"`. -/
def send_update (vals : List ℤ) : String :=
  "U," ++ join_comma (vals.map fun v => toString (clamp100 (v : ℚ))) ++ "\n"

/-! ## Helper lemmas -/

lemma py_round_intCast (n : ℤ) : py_round (n : ℚ) = n := by
  norm_num [py_round]

lemma clamp100_nonneg (x : ℚ) : 0 ≤ clamp100 x :=
  le_max_left 0 _

lemma clamp100_le (x : ℚ) : clamp100 x ≤ 100 :=
  max_le (by norm_num) (min_le_left _ _)

lemma clamp100_intCast {n : ℤ} (h0 : 0 ≤ n) (h1 : n ≤ 100) : clamp100 (n : ℚ) = n := by
  rw [clamp100, py_round_intCast, min_eq_right h1, max_eq_right h0]

/-! ## Claims -/

/-- C9: `clampScore` is idempotent — for every rational `x`,
`clampScore(clampScore(x)) = clampScore(x)` — and its output always
lies in `[0, 100]`. -/
theorem clamp100_idempotent_bounded (x : ℚ) :
    clamp100 ((clamp100 x : ℤ) : ℚ) = clamp100 x ∧ 0 ≤ clamp100 x ∧ clamp100 x ≤ 100 :=
  ⟨clamp100_intCast (clamp100_nonneg x) (clamp100_le x), clamp100_nonneg x, clamp100_le x⟩

/-- C3: the hydration score is `5` whenever elapsed hours `≥ 4` (a hard
floor bypassing interpolation, holding for all larger elapsed times),
and otherwise follows the anchor curve: elapsed 0h → 95, 2h → 52,
4h → 5, 10h → 5. -/
theorem water_value_floor_and_curve :
    (∀ now ts : ℚ, 4 ≤ (now - ts) / 3600 → water_value now ts = 5) ∧
    water_value 0 0 = 95 ∧ water_value 7200 0 = 52 ∧
    water_value 14400 0 = 5 ∧ water_value 36000 0 = 5 := by
  refine ⟨fun now ts h => ?_, ?_, ?_, ?_, ?_⟩
  · simp only [water_value]
    rw [if_pos h]
  · norm_num [water_value, piecewise_linear, pw_core, sortByX, scanSegs, lerp, clamp100, py_round]
  · norm_num [water_value, piecewise_linear, pw_core, sortByX, scanSegs, lerp, clamp100, py_round]
  · norm_num [water_value]
  · norm_num [water_value]

/-- Witness for C3: the hard-floor branch applied at elapsed 10 hours. -/
theorem water_value_floor_witness :
    4 ≤ ((36000 : ℚ) - 0) / 3600 ∧ water_value 36000 0 = 5 :=
  ⟨by norm_num, water_value_floor_and_curve.1 36000 0 (by norm_num)⟩

/-- C5: in a tick whose weather and commute polls fire and whose
fetches fail (for any reason, modelled by `none`), the cached weather
triple and the cached commute estimate are left unchanged — no partial
update — and the poll timestamps are still advanced to `now`, deferring
the next attempt a full interval. -/
theorem poll_failure_retains_cache (now lwp ltp : ℚ) (cached : ℚ × ℤ × ℚ) (cm : ℚ)
    (key : Bool) (hw : 300 < now - lwp) (ht : 120 < now - ltp) :
    poll_weather now lwp cached none = (cached, now) ∧
    poll_commute now ltp cm key none = (cm, now) := by
  constructor
  · simp only [poll_weather]
    rw [if_pos hw]
  · simp only [poll_commute]
    rw [if_pos ht]

/-- Witness for C5: a failed poll at `now = 1000` with both intervals
elapsed, starting from the initial cached readings. -/
theorem poll_failure_retains_cache_witness :
    300 < (1000 : ℚ) - 0 ∧ 120 < (1000 : ℚ) - 0 ∧
    poll_weather 1000 0 (50, 3, 0) none = ((50, 3, 0), 1000) ∧
    poll_commute 1000 0 18 true none = (18, 1000) :=
  ⟨by norm_num, by norm_num,
    (poll_failure_retains_cache 1000 0 0 (50, 3, 0) 18 true (by norm_num) (by norm_num)).1,
    (poll_failure_retains_cache 1000 0 0 (50, 3, 0) 18 true (by norm_num) (by norm_num)).2⟩

/-- C7: the accumulation step preserves
`0 ≤ standing_ms ≤ total_ms`, both counters are non-decreasing, a
non-positive clock delta acts as a zero delta, and a positive delta is
added to the total and — exactly when standing — also to the standing
counter. -/
theorem accumulate_invariant (now lst : ℚ) (standing : Bool) (sms tms : ℚ)
    (h0 : 0 ≤ sms) (h1 : sms ≤ tms) :
    0 ≤ (accumulate now lst standing sms tms).1 ∧
    (accumulate now lst standing sms tms).1 ≤ (accumulate now lst standing sms tms).2 ∧
    sms ≤ (accumulate now lst standing sms tms).1 ∧
    tms ≤ (accumulate now lst standing sms tms).2 ∧
    (now - lst ≤ 0 → accumulate now lst standing sms tms = (sms, tms)) ∧
    (0 < now - lst →
      (accumulate now lst standing sms tms).2 = tms + (now - lst) * 1000 ∧
      (accumulate now lst standing sms tms).1 =
        if standing then sms + (now - lst) * 1000 else sms) := by
  simp only [accumulate]
  by_cases h : 0 < now - lst
  · have hd : 0 ≤ (now - lst) * 1000 := by positivity
    rw [if_pos h]
    refine ⟨?_, ?_, ?_, ?_, fun hc => absurd h (not_lt.mpr hc), fun _ => ⟨rfl, rfl⟩⟩
    · cases standing
      · exact h0
      · show (0 : ℚ) ≤ sms + (now - lst) * 1000
        linarith
    · cases standing
      · show sms ≤ tms + (now - lst) * 1000
        linarith
      · show sms + (now - lst) * 1000 ≤ tms + (now - lst) * 1000
        linarith
    · cases standing
      · exact le_refl sms
      · show sms ≤ sms + (now - lst) * 1000
        linarith
    · show tms ≤ tms + (now - lst) * 1000
      linarith
  · rw [if_neg h]
    refine ⟨h0, h1, le_refl _, le_refl _, fun _ => rfl, fun hc => absurd hc h⟩

/-- Witness for C7: one accumulation step while standing, from the
initial zero counters. -/
theorem accumulate_invariant_witness :
    0 ≤ (0 : ℚ) ∧ (0 : ℚ) ≤ 0 ∧
    (accumulate 2 1 true 0 0).1 ≤ (accumulate 2 1 true 0 0).2 :=
  ⟨le_refl 0, le_refl 0, (accumulate_invariant 2 1 true 0 0 (le_refl 0) (le_refl 0)).2.1⟩

/-- The claim's description of the classifier, for the refinement in
C2: base category assigned in the claim's priority order (thunder,
snow, rain, sunny for code 0, cloudy, unrecognized defaulting to
cloudy), then the wind override, then the severe override. -/
def classify_claim (wcode : ℤ) (wind_mph : ℚ) : String :=
  let base :=
    if wcode ∈ ([95, 96, 99] : List ℤ) then "thunder"
    else if wcode ∈ ([71, 73, 75, 77, 85, 86] : List ℤ) then "snow"
    else if wcode ∈ ([51, 53, 55, 56, 57, 61, 63, 65, 66, 67, 80, 81, 82] : List ℤ) then "rain"
    else if wcode = 0 then "sunny"
    else if wcode ∈ ([1, 2, 3, 45, 48] : List ℤ) then "cloudy"
    else "cloudy"
  let kind2 := if 20 ≤ wind_mph ∧ base ≠ "thunder" then "wind" else base
  if wcode ∈ ([96, 99] : List ℤ) then "severe" else kind2

/-- C2: the classifier agrees with the claim's staged description
(base category in priority order, then wind override, then severe
override), severe always wins over wind when both overrides apply, and
the three quoted examples score 95, 10 and 20. -/
theorem wmo_to_kind_spec :
    (∀ (wcode : ℤ) (wind_mph : ℚ), wmo_to_kind wcode wind_mph = classify_claim wcode wind_mph) ∧
    (∀ (wcode : ℤ) (wind_mph : ℚ), 20 ≤ wind_mph → wcode ∈ ([96, 99] : List ℤ) →
      wmo_to_kind wcode wind_mph = "severe") ∧
    weather_value (wmo_to_kind 0 5) = 95 ∧
    weather_value (wmo_to_kind 96 5) = 10 ∧
    weather_value (wmo_to_kind 3 25) = 20 := by
  refine ⟨fun wcode wind_mph => ?_, fun wcode wind_mph hwind hsev => ?_, ?_, ?_, ?_⟩
  · simp only [wmo_to_kind, classify_claim]
    split_ifs <;> simp_all <;> omega
  · simp only [wmo_to_kind]
    rw [if_pos hsev]
  · simp +decide [weather_value, wmo_to_kind, WEATHER_TICKS]
    norm_num [clamp100, py_round]
  · simp +decide [weather_value, wmo_to_kind, WEATHER_TICKS]
    norm_num [clamp100, py_round]
  · simp +decide [weather_value, wmo_to_kind, WEATHER_TICKS]
    norm_num [clamp100, py_round]

/-- Witness for C2: code 96 with 25 mph wind — both override
conditions hold and the classifier reports "severe". -/
theorem wmo_to_kind_spec_witness :
    (20 : ℚ) ≤ 25 ∧ (96 : ℤ) ∈ ([96, 99] : List ℤ) ∧ wmo_to_kind 96 25 = "severe" :=
  ⟨by norm_num, by decide, wmo_to_kind_spec.2.1 96 25 (by norm_num) (by decide)⟩

lemma startswith_S_shape (line : List Char) (h : startswith line ("S,".toList) = true) :
    ∃ t, line = 'S' :: ',' :: t := by
  rw [startswith, List.isPrefixOf_iff_prefix] at h
  obtain ⟨t, ht⟩ := h
  exact ⟨t, ht.symm⟩

lemma endswith_one_iff (line : List Char) :
    endswith line ("1".toList) = true ↔ line.getLast? = some '1' := by
  have h1 : "1".toList = ['1'] := rfl
  rw [endswith, h1, List.isSuffixOf_iff_suffix, List.getLast?_eq_some_iff]
  exact ⟨fun ⟨t, ht⟩ => ⟨t, ht.symm⟩, fun ⟨t, ht⟩ => ⟨t, ht.symm⟩⟩

lemma drain_posture_step (now lwt : ℚ) (st : Bool) (rest : List (List Char))
    (line : List Char) (h : startswith line ("S,".toList) = true) :
    drain now lwt st (line :: rest) = drain now lwt (endswith line ("1".toList)) rest := by
  obtain ⟨t, ht⟩ := startswith_S_shape line h
  have hne : line ≠ [] := by rw [ht]; simp
  have hnw : line ≠ "B,WATER".toList := by
    rw [ht, show ("B,WATER".toList : List Char) = ['B', ',', 'W', 'A', 'T', 'E', 'R'] from rfl]
    simp +decide
  simp only [drain]
  rw [if_neg hne, if_neg hnw, if_pos h]

/-- C10: for an inbound line beginning `"S,"`, `standing` is set to
true iff the line's final character is `'1'`; any other final
character — including the line being exactly `"S,"` — sets it to
false. -/
theorem posture_line_sets_standing (now lwt : ℚ) (st : Bool) (rest : List (List Char))
    (line : List Char) (h : startswith line ("S,".toList) = true) :
    drain now lwt st (line :: rest) = drain now lwt (endswith line ("1".toList)) rest ∧
    (endswith line ("1".toList) = true ↔ line.getLast? = some '1') :=
  ⟨drain_posture_step now lwt st rest line h, endswith_one_iff line⟩

/-- Witness for C10: the posture line `"S,1"`. -/
theorem posture_line_sets_standing_witness :
    startswith ("S,1".toList) ("S,".toList) = true ∧
    drain 0 0 false ["S,1".toList] = drain 0 0 (endswith ("S,1".toList) ("1".toList)) [] ∧
    (endswith ("S,1".toList) ("1".toList) = true ↔ "S,1".toList.getLast? = some '1') :=
  ⟨by decide, (posture_line_sets_standing 0 0 false [] "S,1".toList (by decide)).1,
    (posture_line_sets_standing 0 0 false [] "S,1".toList (by decide)).2⟩

/-- Counterexample to C6 as stated: with available lines
`["", "B,WATER"]`, the empty line hits `if not line: break`, so the
hydration marker behind it is not processed this tick — the drain
returns the untouched `last_water_ts = 0` instead of resetting it to
`now = 100`. -/
theorem drain_empty_line_counterexample :
    drain 100 0 false [[], "B,WATER".toList] = (0, false) ∧
    ((0 : ℚ), false) ≠ ((100 : ℚ), false) := by
  constructor
  · rfl
  · intro hc
    have := congrArg Prod.fst hc
    norm_num at this

/-- C6 (amended): a malformed non-empty inbound line is dropped
silently and the remaining lines are still processed, and hydration
markers and posture lines are processed wherever they appear after
such lines; but an empty line terminates the drain for the tick,
leaving the lines behind it unprocessed. -/
theorem drain_amended :
    (∀ (now lwt : ℚ) (st : Bool) (rest : List (List Char)),
      drain now lwt st ([] :: rest) = (lwt, st)) ∧
    (∀ (now lwt : ℚ) (st : Bool) (rest : List (List Char)) (line : List Char),
      line ≠ [] → line ≠ "B,WATER".toList → startswith line ("S,".toList) = false →
      drain now lwt st (line :: rest) = drain now lwt st rest) ∧
    (∀ (now lwt : ℚ) (st : Bool) (rest : List (List Char)),
      drain now lwt st ("B,WATER".toList :: rest) = drain now now st rest) ∧
    (∀ (now lwt : ℚ) (st : Bool) (rest : List (List Char)) (line : List Char),
      startswith line ("S,".toList) = true →
      drain now lwt st (line :: rest) = drain now lwt (endswith line ("1".toList)) rest) := by
  refine ⟨fun now lwt st rest => rfl, fun now lwt st rest line h1 h2 h3 => ?_,
    fun now lwt st rest => rfl, fun now lwt st rest line h => drain_posture_step _ _ _ _ _ h⟩
  simp only [drain]
  rw [if_neg h1, if_neg h2, if_neg (by rw [h3]; exact Bool.false_ne_true)]

/-- Witness for C6: the unrecognized line `"X"` is skipped and the
drain continues. -/
theorem drain_amended_witness :
    ("X".toList ≠ ([] : List Char)) ∧ ("X".toList ≠ "B,WATER".toList) ∧
    startswith ("X".toList) ("S,".toList) = false ∧
    drain 0 5 true ["X".toList] = drain 0 5 true [] :=
  ⟨by decide, by decide, by decide,
    drain_amended.2.1 0 5 true [] "X".toList (by decide) (by decide) (by decide)⟩

lemma weather_value_mem (kind : String) :
    0 ≤ weather_value kind ∧ weather_value kind ≤ 100 :=
  ⟨clamp100_nonneg _, clamp100_le _⟩

lemma temp_value_mem (tf : ℚ) : 0 ≤ temp_value tf ∧ temp_value tf ≤ 100 :=
  ⟨clamp100_nonneg _, clamp100_le _⟩

lemma water_value_mem (now ts : ℚ) : 0 ≤ water_value now ts ∧ water_value now ts ≤ 100 := by
  simp only [water_value]
  split_ifs
  · exact ⟨by norm_num, by norm_num⟩
  · exact ⟨clamp100_nonneg _, clamp100_le _⟩

lemma stand_value_mem (sms tms : ℚ) : 0 ≤ stand_value sms tms ∧ stand_value sms tms ≤ 100 := by
  simp only [stand_value]
  split_ifs
  · exact ⟨by norm_num, by norm_num⟩
  · exact ⟨clamp100_nonneg _, clamp100_le _⟩

lemma event_value_mem (s : ℚ) : 0 ≤ event_value s ∧ event_value s ≤ 100 := by
  simp only [event_value]
  split_ifs
  · exact ⟨by norm_num, by norm_num⟩
  · exact ⟨by norm_num, by norm_num⟩
  · exact ⟨clamp100_nonneg _, clamp100_le _⟩

lemma commute_value_mem (m : ℚ) : 0 ≤ commute_value m ∧ commute_value m ≤ 100 :=
  ⟨clamp100_nonneg _, clamp100_le _⟩

/-- C1: every tick, the line handed to the transport is exactly `"U,"`
followed by the six gauge values separated by commas and terminated by
a newline; each value is an integer in `[0, 100]` (each is passed
through `clamp100`, which fixes it since the gauge functions already
produce clamped scores), in the fixed order weather, temperature,
hydration, posture, event, commute. -/
theorem send_update_frame_format (now lwt sms tms tf : ℚ) (wc : ℤ) (wm ete cm : ℚ) :
    send_update (gauge_frame now lwt sms tms tf wc wm ete cm) =
      "U," ++ toString (weather_value (wmo_to_kind wc wm)) ++ "," ++
        toString (temp_value tf) ++ "," ++ toString (water_value now lwt) ++ "," ++
        toString (stand_value sms tms) ++ "," ++ toString (event_value (ete - now)) ++ "," ++
        toString (commute_value cm) ++ "\n" ∧
    ∀ v ∈ gauge_frame now lwt sms tms tf wc wm ete cm, 0 ≤ v ∧ v ≤ 100 := by
  constructor
  · simp only [send_update, gauge_frame, List.map, join_comma,
      clamp100_intCast (weather_value_mem (wmo_to_kind wc wm)).1
        (weather_value_mem (wmo_to_kind wc wm)).2,
      clamp100_intCast (temp_value_mem tf).1 (temp_value_mem tf).2,
      clamp100_intCast (water_value_mem now lwt).1 (water_value_mem now lwt).2,
      clamp100_intCast (stand_value_mem sms tms).1 (stand_value_mem sms tms).2,
      clamp100_intCast (event_value_mem (ete - now)).1 (event_value_mem (ete - now)).2,
      clamp100_intCast (commute_value_mem cm).1 (commute_value_mem cm).2,
      String.append_assoc]
  · intro v hv
    simp only [gauge_frame, List.mem_cons, List.not_mem_nil, or_false] at hv
    rcases hv with h | h | h | h | h | h <;> subst h
    · exact weather_value_mem _
    · exact temp_value_mem _
    · exact water_value_mem _ _
    · exact stand_value_mem _ _
    · exact event_value_mem _
    · exact commute_value_mem _

/-- Counterexample to C4 as stated: at the quoted runtime state the
code's frame is `[75, 28, 70, 10, 75, 62]` — the event gauge
interpolates 7h between (6h, 70) and (8h, 80) to exactly 75, not 74,
and the commute gauge interpolates 20 min on the 18→45 segment to 62,
not 58. -/
theorem gauge_frame_example_counterexample :
    gauge_frame 0 (-3600) 500000 1000000 72 1 5 25200 20 = [75, 28, 70, 10, 75, 62] ∧
    ([75, 28, 70, 10, 75, 62] : List ℤ) ≠ [75, 28, 70, 10, 74, 58] := by
  constructor
  · have hw : weather_value (wmo_to_kind 1 5) = 75 := by
      simp +decide [weather_value, wmo_to_kind, WEATHER_TICKS]
      norm_num [clamp100, py_round]
    have ht : temp_value 72 = 28 := by norm_num [temp_value, clamp100, py_round]
    have hwa : water_value 0 (-3600) = 70 := by
      norm_num [water_value, piecewise_linear, pw_core, sortByX, scanSegs, lerp,
        clamp100, py_round]
    have hst : stand_value 500000 1000000 = 10 := by
      norm_num [stand_value, piecewise_linear, pw_core, sortByX, scanSegs, lerp,
        clamp100, py_round]
    have hev : event_value (25200 - 0) = 75 := by
      norm_num [event_value, piecewise_linear, pw_core, sortByX, scanSegs, lerp,
        clamp100, py_round]
    have hcm : commute_value 20 = 62 := by
      norm_num [commute_value, piecewise_linear, pw_core, sortByX, scanSegs, lerp,
        clamp100, py_round]
    simp only [gauge_frame, hw, ht, hwa, hst, hev, hcm]
  · decide

/-- C4 (amended): with cachedWeather = (72°F, code 1, wind 5), last
hydration event one hour ago, standing 500000 of 1000000 ms, event
target 7 hours away and a 20-minute commute estimate, the assembled
frame is `[75, 28, 70, 10, 75, 62]`: event exactly 75 (midpoint of the
70@6h–80@8h segment) and commute 62 (20 min on the 18→45 segment). -/
theorem gauge_frame_example (now : ℚ) :
    gauge_frame now (now - 3600) 500000 1000000 72 1 5 (now + 25200) 20 =
      [75, 28, 70, 10, 75, 62] := by
  have h1 : now - (now - 3600) = (3600 : ℚ) := by ring
  have h2 : now + 25200 - now = (25200 : ℚ) := by ring
  have hw : weather_value (wmo_to_kind 1 5) = 75 := by
    simp +decide [weather_value, wmo_to_kind, WEATHER_TICKS]
    norm_num [clamp100, py_round]
  have ht : temp_value 72 = 28 := by norm_num [temp_value, clamp100, py_round]
  have hwa : water_value now (now - 3600) = 70 := by
    simp only [water_value, h1]
    norm_num [piecewise_linear, pw_core, sortByX, scanSegs, lerp, clamp100, py_round]
  have hst : stand_value 500000 1000000 = 10 := by
    norm_num [stand_value, piecewise_linear, pw_core, sortByX, scanSegs, lerp,
      clamp100, py_round]
  have hev : event_value (now + 25200 - now) = 75 := by
    rw [h2]
    norm_num [event_value, piecewise_linear, pw_core, sortByX, scanSegs, lerp,
      clamp100, py_round]
  have hcm : commute_value 20 = 62 := by
    norm_num [commute_value, piecewise_linear, pw_core, sortByX, scanSegs, lerp,
      clamp100, py_round]
  simp only [gauge_frame, hw, ht, hwa, hst, hev, hcm]

/-! ## Lemmas about `piecewise_linear` (claim C8) -/

instance : IsTotal (ℚ × ℚ) (fun p q => p.1 ≤ q.1) :=
  ⟨fun a b => le_total a.1 b.1⟩

instance : IsTrans (ℚ × ℚ) (fun p q => p.1 ≤ q.1) :=
  ⟨fun _ _ _ h1 h2 => le_trans h1 h2⟩

lemma lerp_one (a b : ℚ) : lerp a b 1 = b := by
  rw [lerp]; ring

lemma getLast?_cons_getLastD (p : ℚ × ℚ) (ps : List (ℚ × ℚ)) :
    (p :: ps).getLast? = some (ps.getLastD p) := by
  induction ps generalizing p with
  | nil => rfl
  | cons r t ih => rw [List.getLast?_cons_cons, ih r, List.getLastD_cons]

/-- In a list sorted (non-strictly) by x, every member's x is at most
the last element's x. -/
lemma le_getLast_of_pairwise :
    ∀ (l : List (ℚ × ℚ)), l.Pairwise (fun p q => p.1 ≤ q.1) →
      ∀ q ∈ l, ∀ lst, l.getLast? = some lst → q.1 ≤ lst.1 := by
  intro l
  induction l with
  | nil => intro _ q hq; simp at hq
  | cons p t ih =>
    intro hp q hq lst hlst
    cases t with
    | nil =>
      simp only [List.getLast?_singleton, Option.some.injEq] at hlst
      simp only [List.mem_singleton] at hq
      subst hlst; subst hq
      exact le_refl _
    | cons r t' =>
      rw [List.getLast?_cons_cons] at hlst
      rcases List.mem_cons.mp hq with rfl | hq'
      · have hmem : lst ∈ r :: t' := List.mem_of_mem_getLast? hlst
        exact (List.pairwise_cons.mp hp).1 lst hmem
      · exact ih (List.pairwise_cons.mp hp).2 q hq' lst hlst

/-- The segment scan returns `y` for the first anchor `(a, y)` whose x
equals the probe, provided some anchor with strictly smaller x comes
before it. -/
lemma scanSegs_first_hit (a y d : ℚ) (suf : List (ℚ × ℚ)) :
    ∀ pre : List (ℚ × ℚ), pre ≠ [] → (∀ p ∈ pre, p.1 < a) →
      scanSegs a d (pre ++ (a, y) :: suf) = y := by
  intro pre
  induction pre with
  | nil => intro h; exact absurd rfl h
  | cons p0 pre' ih =>
    intro _ hlt
    obtain ⟨x0, y0⟩ := p0
    have h0 : x0 < a := hlt (x0, y0) (by simp)
    cases pre' with
    | nil =>
      rw [List.singleton_append, scanSegs,
        if_pos ⟨le_of_lt h0, le_refl a⟩,
        if_pos (fun hc : a = x0 => absurd hc (ne_of_gt h0)),
        div_self (sub_ne_zero.mpr (ne_of_gt h0)), lerp_one]
    | cons p1 pre'' =>
      obtain ⟨x1, y1⟩ := p1
      have h1 : x1 < a := hlt (x1, y1) (by simp)
      rw [List.cons_append, List.cons_append, scanSegs,
        if_neg (fun hc => absurd hc.2 (not_le.mpr h1)), ← List.cons_append]
      exact ih (by simp) fun p hp => hlt p (List.mem_cons_of_mem _ hp)

/-- The post-sort body of `piecewise_linear`, evaluated at the x of the
first anchor carrying that x, returns that anchor's y — provided the
anchors after it are not all at the same x (i.e. the probe is not a
duplicated maximum). -/
lemma pw_core_first_occurrence (pre suf : List (ℚ × ℚ)) (a y : ℚ)
    (hs : (pre ++ (a, y) :: suf).Pairwise (fun p q => p.1 ≤ q.1))
    (hpre : ∀ p ∈ pre, p.1 < a)
    (hsuf : suf = [] ∨ ∃ q ∈ suf, a < q.1) :
    pw_core a (pre ++ (a, y) :: suf) = y := by
  cases pre with
  | nil =>
    rw [List.nil_append, pw_core]
    simp only [if_pos (le_refl a)]
  | cons p0 pre₁ =>
    have h0 : p0.1 < a := hpre p0 (by simp)
    rw [List.cons_append]
    simp only [pw_core]
    rw [if_neg (not_le.mpr h0)]
    rcases hsuf with rfl | ⟨q, hq, haq⟩
    · have hlst : (pre₁ ++ [(a, y)]).getLastD p0 = (a, y) := List.getLastD_concat _ _ _
      rw [hlst, if_pos (le_refl a)]
    · have hsne : suf ≠ [] := fun hc => by simp [hc] at hq
      obtain ⟨L, hL⟩ : ∃ L, suf.getLast? = some L := by
        cases suf with
        | nil => exact absurd rfl hsne
        | cons s0 s' => exact ⟨s'.getLastD s0, getLast?_cons_getLastD s0 s'⟩
      have hlst : (pre₁ ++ (a, y) :: suf).getLastD p0 = L := by
        rw [List.getLastD_eq_getLast?,
          show pre₁ ++ (a, y) :: suf = (pre₁ ++ [(a, y)]) ++ suf from by simp,
          List.getLast?_append_of_ne_nil _ hsne, hL]
        rfl
      rw [hlst]
      have hpair_suf : suf.Pairwise (fun p q => p.1 ≤ q.1) :=
        (List.pairwise_cons.mp (List.pairwise_append.mp hs).2.1).2
      have hqL : q.1 ≤ L.1 := le_getLast_of_pairwise suf hpair_suf q hq L hL
      have hLa : ¬ L.1 ≤ a := not_le.mpr (lt_of_lt_of_le haq hqL)
      rw [if_neg hLa, ← List.cons_append]
      exact scanSegs_first_hit a y L.2 suf (p0 :: pre₁) (by simp) hpre

lemma pw_core_cons (x : ℚ) (p : ℚ × ℚ) (ps : List (ℚ × ℚ)) :
    pw_core x (p :: ps) =
      if x ≤ p.1 then p.2
      else if (ps.getLastD p).1 ≤ x then (ps.getLastD p).2
      else scanSegs x (ps.getLastD p).2 (p :: ps) := rfl

lemma sortByX_perm (points : List (ℚ × ℚ)) : List.Perm (sortByX points) points :=
  List.perm_insertionSort _ points

lemma sortByX_sorted (points : List (ℚ × ℚ)) :
    (sortByX points).Pairwise (fun p q => p.1 ≤ q.1) :=
  List.sorted_insertionSort _ points

lemma sortByX_eq_self {l : List (ℚ × ℚ)} (h : l.Pairwise (fun p q => p.1 ≤ q.1)) :
    sortByX l = l :=
  List.Sorted.insertionSort_eq h

/-- Evaluating exactly at an anchor's x, with unique x values and any
input order, returns that anchor's y. -/
lemma piecewise_linear_at_anchor (points : List (ℚ × ℚ)) (a b : ℚ)
    (huniq : points.Pairwise (fun p q => p.1 ≠ q.1))
    (hmem : (a, b) ∈ points) :
    piecewise_linear a points = b := by
  have hperm := sortByX_perm points
  have hsort := sortByX_sorted points
  have hmem' : (a, b) ∈ sortByX points := hperm.mem_iff.mpr hmem
  have huniq' : (sortByX points).Pairwise (fun p q => p.1 ≠ q.1) :=
    (hperm.pairwise_iff fun h => h.symm).mpr huniq
  obtain ⟨pre, suf, hdecomp⟩ := List.append_of_mem hmem'
  rw [hdecomp] at hsort huniq'
  show pw_core a (sortByX points) = b
  rw [hdecomp]
  have hpre : ∀ p ∈ pre, p.1 < a := by
    intro p hp
    have hle : p.1 ≤ a := (List.pairwise_append.mp hsort).2.2 p hp (a, b) (by simp)
    have hne : p.1 ≠ a := (List.pairwise_append.mp huniq').2.2 p hp (a, b) (by simp)
    exact lt_of_le_of_ne hle hne
  have hsuf : suf = [] ∨ ∃ q ∈ suf, a < q.1 := by
    cases suf with
    | nil => exact Or.inl rfl
    | cons s0 suf' =>
      refine Or.inr ⟨s0, by simp, ?_⟩
      have hle : a ≤ s0.1 :=
        (List.pairwise_cons.mp (List.pairwise_append.mp hsort).2.1).1 s0 (by simp)
      have hne : a ≠ s0.1 :=
        (List.pairwise_cons.mp (List.pairwise_append.mp huniq').2.1).1 s0 (by simp)
      exact lt_of_le_of_ne hle hne
  exact pw_core_first_occurrence pre suf a b hsort hpre hsuf

/-- Below the unique minimum anchor's x, the minimum anchor's y is
returned (flat extrapolation). -/
lemma piecewise_linear_below_min (points : List (ℚ × ℚ)) (a b x : ℚ)
    (hmem : (a, b) ∈ points)
    (hmin : ∀ p ∈ points, p ≠ (a, b) → a < p.1)
    (hx : x < a) :
    piecewise_linear x points = b := by
  have hperm := sortByX_perm points
  have hsort := sortByX_sorted points
  have hmem' : (a, b) ∈ sortByX points := hperm.mem_iff.mpr hmem
  cases hs : sortByX points with
  | nil => rw [hs] at hmem'; simp at hmem'
  | cons p ps =>
    rw [hs] at hmem' hsort
    have hhead : p = (a, b) := by
      by_contra hne
      have hpmem : p ∈ points := hperm.mem_iff.mp (hs ▸ List.mem_cons_self p ps)
      have hlt : a < p.1 := hmin p hpmem hne
      rcases List.mem_cons.mp hmem' with heq | hmem''
      · exact hne heq.symm
      · exact absurd ((List.pairwise_cons.mp hsort).1 (a, b) hmem'') (not_le.mpr hlt)
    show pw_core x (sortByX points) = b
    rw [hs, hhead]
    simp only [pw_core]
    rw [if_pos (le_of_lt hx : x ≤ (a, b).1)]

/-- Above the unique maximum anchor's x, the maximum anchor's y is
returned (flat extrapolation). -/
lemma piecewise_linear_above_max (points : List (ℚ × ℚ)) (a b x : ℚ)
    (hmem : (a, b) ∈ points)
    (hmax : ∀ p ∈ points, p ≠ (a, b) → p.1 < a)
    (hx : a < x) :
    piecewise_linear x points = b := by
  have hperm := sortByX_perm points
  have hsort := sortByX_sorted points
  have hmem' : (a, b) ∈ sortByX points := hperm.mem_iff.mpr hmem
  cases hs : sortByX points with
  | nil => rw [hs] at hmem'; simp at hmem'
  | cons p ps =>
    rw [hs] at hmem' hsort
    have hlast? : (p :: ps).getLast? = some (ps.getLastD p) := getLast?_cons_getLastD p ps
    have hlstmem : ps.getLastD p ∈ p :: ps := List.mem_of_mem_getLast? hlast?
    have hlst : ps.getLastD p = (a, b) := by
      by_contra hne
      have hmemp : ps.getLastD p ∈ points := hperm.mem_iff.mp (hs ▸ hlstmem)
      have hlt : (ps.getLastD p).1 < a := hmax _ hmemp hne
      have hge : a ≤ (ps.getLastD p).1 :=
        le_getLast_of_pairwise (p :: ps) hsort (a, b) hmem' _ hlast?
      exact absurd hge (not_le.mpr hlt)
    have hheadx : p.1 < x := by
      by_cases hpe : p = (a, b)
      · rw [hpe]; exact hx
      · exact lt_trans (hmax p (hperm.mem_iff.mp (hs ▸ List.mem_cons_self p ps)) hpe) hx
    show pw_core x (sortByX points) = b
    rw [hs]
    simp only [pw_core]
    rw [if_neg (not_le.mpr hheadx), hlst, if_pos (le_of_lt hx : (a, b).1 ≤ x)]

/-- A duplicated anchor x strictly below the maximum: evaluating at the
shared x returns the first (lower) duplicate's y, with no division by
zero. -/
lemma piecewise_linear_duplicate_inner (pre suf : List (ℚ × ℚ)) (a y y' : ℚ)
    (hs : (pre ++ (a, y) :: (a, y') :: suf).Pairwise (fun p q => p.1 ≤ q.1))
    (hpre : ∀ p ∈ pre, p.1 < a)
    (hsuf : ∃ q ∈ suf, a < q.1) :
    piecewise_linear a (pre ++ (a, y) :: (a, y') :: suf) = y := by
  show pw_core a (sortByX _) = y
  rw [sortByX_eq_self hs]
  obtain ⟨q, hq, haq⟩ := hsuf
  exact pw_core_first_occurrence pre ((a, y') :: suf) a y hs hpre
    (Or.inr ⟨q, List.mem_cons_of_mem _ hq, haq⟩)

/-- A duplicated anchor x at the maximum: evaluating at the shared x
returns the second (upper) duplicate's y, because the
`x >= points[-1][0]` clamp fires first. -/
lemma piecewise_linear_duplicate_max (c d : ℚ) (mid : List (ℚ × ℚ)) (a y y' : ℚ)
    (hs : ((c, d) :: mid ++ [(a, y), (a, y')]).Pairwise (fun p q => p.1 ≤ q.1))
    (hc : c < a) :
    piecewise_linear a ((c, d) :: mid ++ [(a, y), (a, y')]) = y' := by
  show pw_core a (sortByX _) = y'
  rw [sortByX_eq_self hs, List.cons_append, pw_core_cons]
  have hlst : (mid ++ [(a, y), (a, y')]).getLastD (c, d) = (a, y') := by
    rw [show mid ++ [(a, y), (a, y')] = (mid ++ [(a, y)]) ++ [(a, y')] from by simp]
    exact List.getLastD_concat _ _ _
  rw [if_neg (not_le.mpr hc : ¬ a ≤ (c, d).1), hlst,
    if_pos (le_refl a : (a, y').1 ≤ a)]

/-- C8 (amended): for anchor lists with unique x values, in any input
order, `piecewise_linear` returns the anchor's y exactly at an
anchor's x, the minimum anchor's y below the minimum x and the maximum
anchor's y above the maximum x; with two adjacent sorted anchors
sharing an x it divides by nothing and returns the lower anchor's y
when the shared x is below the maximum anchor x, but the upper (last)
anchor's y when the shared x is the maximum. -/
theorem piecewise_linear_spec :
    (∀ (points : List (ℚ × ℚ)) (a b : ℚ),
      points.Pairwise (fun p q => p.1 ≠ q.1) → (a, b) ∈ points →
      piecewise_linear a points = b) ∧
    (∀ (points : List (ℚ × ℚ)) (a b x : ℚ), (a, b) ∈ points →
      (∀ p ∈ points, p ≠ (a, b) → a < p.1) → x < a →
      piecewise_linear x points = b) ∧
    (∀ (points : List (ℚ × ℚ)) (a b x : ℚ), (a, b) ∈ points →
      (∀ p ∈ points, p ≠ (a, b) → p.1 < a) → a < x →
      piecewise_linear x points = b) ∧
    (∀ (pre suf : List (ℚ × ℚ)) (a y y' : ℚ),
      (pre ++ (a, y) :: (a, y') :: suf).Pairwise (fun p q => p.1 ≤ q.1) →
      (∀ p ∈ pre, p.1 < a) → (∃ q ∈ suf, a < q.1) →
      piecewise_linear a (pre ++ (a, y) :: (a, y') :: suf) = y) ∧
    (∀ (c d : ℚ) (mid : List (ℚ × ℚ)) (a y y' : ℚ),
      ((c, d) :: mid ++ [(a, y), (a, y')]).Pairwise (fun p q => p.1 ≤ q.1) → c < a →
      piecewise_linear a ((c, d) :: mid ++ [(a, y), (a, y')]) = y') :=
  ⟨piecewise_linear_at_anchor, piecewise_linear_below_min, piecewise_linear_above_max,
    piecewise_linear_duplicate_inner, piecewise_linear_duplicate_max⟩

/-- Counterexample to C8 as stated: in `[(0,1),(2,5),(2,9)]` the two
adjacent sorted anchors `(2,5)` and `(2,9)` share the maximum x, and
evaluating at `x = 2` returns the upper anchor's `9`, not the lower
anchor's `5`. -/
theorem piecewise_linear_duplicate_max_counterexample :
    piecewise_linear 2 [(0, 1), (2, 5), (2, 9)] = 9 ∧ (9 : ℚ) ≠ 5 := by
  constructor
  · norm_num [piecewise_linear, pw_core, sortByX, List.getLastD]
  · norm_num

/-- Witness for C8: each conjunct applied to a small concrete anchor
list. -/
theorem piecewise_linear_spec_witness :
    piecewise_linear 1 [(1, 3), (0, 2)] = 3 ∧
    piecewise_linear (-5) [(1, 3), (0, 2)] = 2 ∧
    piecewise_linear 7 [(1, 3), (0, 2)] = 3 ∧
    piecewise_linear 1 [(0, 2), (1, 5), (1, 9), (2, 4)] = 5 ∧
    piecewise_linear 1 [(0, 2), (1, 5), (1, 9)] = 9 :=
  ⟨piecewise_linear_spec.1 [(1, 3), (0, 2)] 1 3 (by decide) (by decide),
    piecewise_linear_spec.2.1 [(1, 3), (0, 2)] 0 2 (-5) (by decide) (by decide) (by decide),
    piecewise_linear_spec.2.2.1 [(1, 3), (0, 2)] 1 3 7 (by decide) (by decide) (by decide),
    piecewise_linear_spec.2.2.2.1 [(0, 2)] [(2, 4)] 1 5 9 (by decide) (by decide) (by decide),
    piecewise_linear_spec.2.2.2.2 0 2 [] 1 5 9 (by decide) (by decide)⟩

end Dashboard
